import Mathlib

/-!
Shallow embedding of `examples/mnist_ddp.py` (MS-AMP distributed MNIST
example).  The script is straight-line glue code around framework calls, so it
is embedded as trace-producing functions: each framework call the script makes
becomes an `Event`, `train` becomes a recursive function mirroring the Python
`for`-loop with its `break`, and `main` becomes the concatenation of the event
lists produced by each of its statements, in source order.  Parameters the
script obtains from the environment (the global rank from `dist.get_rank()`,
the number of batches in the training loader, and whether the optimizer
returned by `msamp.initialize` has an `all_reduce_grads` attribute — the msamp
library itself is not part of this repository) are inputs of the embedding.
-/

namespace MnistDdp

/-- The kind of layer held by a field of `Net` (`nn.Conv2d`, `nn.Dropout`,
`nn.Linear` in the source). -/
inductive LayerKind where
  | conv2d
  | dropout
  | linear
deriving DecidableEq, Repr

/-- The six layer fields constructed in `Net.__init__`, in source order:
`conv1`, `conv2`, `dropout1`, `dropout2`, `fc1`, `fc2`. -/
def netLayers : List (String × LayerKind) :=
  [ ("conv1", LayerKind.conv2d),
    ("conv2", LayerKind.conv2d),
    ("dropout1", LayerKind.dropout),
    ("dropout2", LayerKind.dropout),
    ("fc1", LayerKind.linear),
    ("fc2", LayerKind.linear) ]

/-- One operation applied by `Net.forward`. -/
inductive ForwardOp where
  | layer (name : String)
  | relu
  | maxPool2d
  | flatten
  | logSoftmax
deriving DecidableEq, Repr

/-- The sequence of operations applied by `Net.forward`, in source order
(lines 38–49 of the script). -/
def netForward : List ForwardOp :=
  [ ForwardOp.layer "conv1", ForwardOp.relu,
    ForwardOp.layer "conv2", ForwardOp.relu,
    ForwardOp.maxPool2d,
    ForwardOp.layer "dropout1",
    ForwardOp.flatten,
    ForwardOp.layer "fc1", ForwardOp.relu,
    ForwardOp.layer "dropout2",
    ForwardOp.layer "fc2",
    ForwardOp.logSoftmax ]

/-- The forward-pass order as the spec states it: "conv1, relu, conv2, relu,
max-pool, dropout1, flatten, fc1, relu, dropout2, fc2, log-softmax".
Written from the spec's words, to be compared with `netForward`. -/
def specForwardOrder : List ForwardOp :=
  [ ForwardOp.layer "conv1", ForwardOp.relu,
    ForwardOp.layer "conv2", ForwardOp.relu,
    ForwardOp.maxPool2d,
    ForwardOp.layer "dropout1",
    ForwardOp.flatten,
    ForwardOp.layer "fc1", ForwardOp.relu,
    ForwardOp.layer "dropout2",
    ForwardOp.layer "fc2",
    ForwardOp.logSoftmax ]

/-- The parsed command-line arguments (`args` in `main`).  `local_rank` is
supplied by the launcher and is a process index, hence modelled as `Nat`.
The float-valued flags `--lr` and `--gamma` are carried as rationals; no
claim depends on their numeric values. -/
structure Args where
  batchSize : Nat
  testBatchSize : Nat
  epochs : Nat
  lr : Rat
  gamma : Rat
  noCuda : Bool
  dryRun : Bool
  seed : Nat
  logInterval : Nat
  saveModel : Bool
  localRank : Nat
  enableMsamp : Bool
  optLevel : String
deriving DecidableEq, Repr

/-- The flag strings registered by the `parser.add_argument` calls in `main`,
in source order (lines 119–143). -/
def cliFlags : List String :=
  [ "--batch-size", "--test-batch-size", "--epochs", "--lr", "--gamma",
    "--no-cuda", "--dry-run", "--seed", "--log-interval", "--save-model",
    "--local_rank", "--enable-msamp", "--opt-level" ]

/-- What the model variable holds: the bare `Net`, the object returned by
`msamp.initialize`, or the `DistributedDataParallel` wrapper around one of
those. -/
inductive ModelKind where
  | net
  | msampModel
  | ddpWrapped (inner : ModelKind)
deriving DecidableEq, Repr

/-- What the optimizer variable holds: the `torch.optim.AdamW` instance or
the optimizer returned by `msamp.initialize`. -/
inductive OptKind where
  | adamW
  | msampOpt
deriving DecidableEq, Repr

/-- One framework call (or print) made by the script's own code. -/
inductive Event where
  | parseArgs
  | setDevice (localRank : Nat)
  | initProcessGroup (backend : String) (initMethod : String)
  | manualSeed (seed : Nat)
  | mnistData (train : Bool) (download : Bool)
  | cudaSync
  | distSampler
  | seqSampler
  | dataLoader (train : Bool)
  | buildModel (kind : ModelKind)
  | buildOpt (kind : OptKind)
  | msampPrint (optLevel : String)
  | msampInit (optLevel : String)
  | ddpWrap (localRank : Nat)
  | buildScheduler
  | setEpoch (epoch : Nat)
  | zeroGrad
  | forward
  | nllLoss
  | backward
  | allReduceGrads
  | optStep
  | trainLog (epoch : Nat) (batchIdx : Nat)
  | testEval
  | schedStep
  | saveFile (path : String)
deriving DecidableEq, Repr

/-- The model variable after the optional `msamp.initialize` step
(lines 182–187): `Net` unless `--enable-msamp` was given. -/
def modelAfterMsamp (args : Args) : ModelKind :=
  if args.enableMsamp then ModelKind.msampModel else ModelKind.net

/-- The optimizer variable after the optional `msamp.initialize` step:
the `AdamW` instance unless `--enable-msamp` was given. -/
def optAfterMsamp (args : Args) : OptKind :=
  if args.enableMsamp then OptKind.msampOpt else OptKind.adamW

/-- The model actually passed to `train`: the DDP wrapper (line 189) around
`modelAfterMsamp`. -/
def trainedModel (args : Args) : ModelKind :=
  ModelKind.ddpWrapped (modelAfterMsamp args)

/-- The events of one iteration of the `for batch_idx, ... in enumerate(...)`
body of `train` (lines 66–82): `zero_grad`, forward, `nll_loss`, `backward`,
`all_reduce_grads` when the optimizer has that attribute, `step`, and the
progress print when the rank is 0 and `batch_idx` is a multiple of
`--log-interval`. -/
def batchTrace (args : Args) (rank : Nat) (hasAllReduce : Bool)
    (epoch : Nat) (batchIdx : Nat) : List Event :=
  [Event.zeroGrad, Event.forward, Event.nllLoss, Event.backward]
    ++ (if hasAllReduce then [Event.allReduceGrads] else [])
    ++ [Event.optStep]
    ++ (if rank = 0 ∧ batchIdx % args.logInterval = 0 then
          [Event.trainLog epoch batchIdx]
        else [])

/-- The loop of `train` over the remaining batches, starting at batch index
`batchIdx`; `args.dry_run` triggers the `break` at the end of the first
iteration (line 83–84). -/
def trainLoop (args : Args) (rank : Nat) (hasAllReduce : Bool)
    (epoch : Nat) : Nat → Nat → List Event
  | 0, _ => []
  | n + 1, batchIdx =>
      batchTrace args rank hasAllReduce epoch batchIdx
        ++ (if args.dryRun then []
            else trainLoop args rank hasAllReduce epoch n (batchIdx + 1))

/-- The `train` function (lines 53–84) on a loader with `numBatches`
batches. -/
def train (args : Args) (rank : Nat) (hasAllReduce : Bool)
    (epoch : Nat) (numBatches : Nat) : List Event :=
  trainLoop args rank hasAllReduce epoch numBatches 0

/-- The batch indices actually processed by `train`: all of them, or only
index 0 under `--dry-run` (none when the loader is empty). -/
def trainIdxs (args : Args) (numBatches : Nat) : List Nat :=
  if args.dryRun then List.range (min 1 numBatches) else List.range numBatches

/-- One iteration of the epoch loop in `main` (lines 194–199):
`train_sampler.set_epoch(epoch)`, the call to `train`, the call to `test`
on rank 0 only, then `scheduler.step()`. -/
def epochTrace (args : Args) (rank : Nat) (hasAllReduce : Bool)
    (numBatches : Nat) (epoch : Nat) : List Event :=
  Event.setEpoch epoch
    :: (train args rank hasAllReduce epoch numBatches
        ++ (if rank = 0 then [Event.testEval] else [])
        ++ [Event.schedStep])

/-- The epoch loop of `main`, `numEpochs` iterations starting at epoch
number `epoch`. -/
def epochLoop (args : Args) (rank : Nat) (hasAllReduce : Bool)
    (numBatches : Nat) : Nat → Nat → List Event
  | 0, _ => []
  | k + 1, epoch =>
      epochTrace args rank hasAllReduce numBatches epoch
        ++ epochLoop args rank hasAllReduce numBatches k (epoch + 1)

/-- The events of `main` before the final save (lines 115–199), in source
order.  `rank` is the value of `dist.get_rank()`; `msampHasAllReduce` records
whether the optimizer returned by `msamp.initialize` carries the
`all_reduce_grads` attribute (the plain `AdamW` does not); `numBatches` is
the length of the training loader. -/
def mainBody (args : Args) (rank : Nat) (msampHasAllReduce : Bool)
    (numBatches : Nat) : List Event :=
  [ Event.parseArgs,
    Event.setDevice args.localRank,
    Event.initProcessGroup "nccl" "env://",
    Event.manualSeed args.seed ]
    ++ (if args.localRank = 0 then [Event.mnistData true true] else [])
    ++ [Event.cudaSync]
    ++ (if args.localRank > 0 then [Event.mnistData true false] else [])
    ++ [ Event.mnistData false false,
         Event.distSampler,
         Event.seqSampler,
         Event.dataLoader true,
         Event.dataLoader false,
         Event.buildModel ModelKind.net,
         Event.buildOpt OptKind.adamW ]
    ++ (if args.enableMsamp then
          [Event.msampPrint args.optLevel, Event.msampInit args.optLevel]
        else [])
    ++ [Event.ddpWrap args.localRank, Event.buildScheduler]
    ++ epochLoop args rank (args.enableMsamp && msampHasAllReduce)
        numBatches args.epochs 1

/-- The full event trace of `main` (lines 115–203): the body followed by the
checkpoint save, which happens only when `--save-model` was given and the
rank is 0. -/
def mainEvents (args : Args) (rank : Nat) (msampHasAllReduce : Bool)
    (numBatches : Nat) : List Event :=
  mainBody args rank msampHasAllReduce numBatches
    ++ (if args.saveModel ∧ rank = 0 then [Event.saveFile "mnist_cnn.pt"]
        else [])

/-- Recognizes the `msamp.initialize` call. -/
def isMsampInit : Event → Bool
  | Event.msampInit _ => true
  | _ => false

/-- Recognizes `optimizer.zero_grad()`. -/
def isZeroGrad : Event → Bool
  | Event.zeroGrad => true
  | _ => false

/-- Recognizes `optimizer.all_reduce_grads(model)`. -/
def isAllReduce : Event → Bool
  | Event.allReduceGrads => true
  | _ => false

/-- Recognizes `torch.save(...)`. -/
def isSaveFile : Event → Bool
  | Event.saveFile _ => true
  | _ => false

/-- Events that are cross-process or device synchronization actions invoked
by the script's own code: the process-group initialization, the explicit
`torch.cuda.synchronize()`, the per-epoch `set_epoch`, and the explicit
gradient all-reduce. -/
def isSyncEvent : Event → Bool
  | Event.initProcessGroup _ _ => true
  | Event.cudaSync => true
  | Event.setEpoch _ => true
  | Event.allReduceGrads => true
  | _ => false

/-- The two synchronization entry points the spec claims are the only ones:
process-group initialization and per-epoch sampler re-seeding. -/
def isClaimedSync : Event → Bool
  | Event.initProcessGroup _ _ => true
  | Event.setEpoch _ => true
  | _ => false

/-- Events that produce user-visible output: the training-progress print in
`train`, the prints inside `test`, and the "msamp is enabled" print in
`main`. -/
def isOutputEvent : Event → Bool
  | Event.trainLog _ _ => true
  | Event.testEval => true
  | Event.msampPrint _ => true
  | _ => false

/-- Events belonging to the training loop proper (the body of `train`). -/
def isTrainingEvent : Event → Bool
  | Event.zeroGrad => true
  | Event.forward => true
  | Event.nllLoss => true
  | Event.backward => true
  | Event.allReduceGrads => true
  | Event.optStep => true
  | Event.trainLog _ _ => true
  | _ => false

/-- True when no training event occurs after the first evaluation event:
the shape a strictly phased "all training, then all evaluation" run would
have. -/
def noTrainingAfterEval : List Event → Bool
  | [] => true
  | Event.testEval :: rest => rest.all (fun e => ! isTrainingEvent e)
  | _ :: rest => noTrainingAfterEval rest

/-- Sequential execution of the script's framework calls under an oracle
that says which calls raise: the first raised error aborts the run and is
returned unchanged (the script has no `try`/`except` anywhere). -/
def runEvents {ε : Type} (oracle : Event → Option ε) :
    List Event → Except ε (List Event)
  | [] => Except.ok []
  | e :: rest =>
      match oracle e with
      | some err => Except.error err
      | none =>
          match runEvents oracle rest with
          | Except.ok tr => Except.ok (e :: tr)
          | Except.error err => Except.error err

/-! ### Normal forms for the loops -/

theorem flatMap_const_nil {α β : Type} (l : List α) :
    (l.flatMap fun _ => ([] : List β)) = [] := by
  induction l with
  | nil => rfl
  | cons a l ih => simp [ih]

theorem countP_flatMap_const {α β : Type} (p : β → Bool) (f : α → List β)
    (c : Nat) (h : ∀ a, (f a).countP p = c) (l : List α) :
    (l.flatMap f).countP p = l.length * c := by
  induction l with
  | nil => simp
  | cons a l ih =>
      simp [List.countP_append, h, ih, Nat.succ_mul, Nat.add_comm]

theorem flatMap_ite_singleton {α β : Type} (l : List α) (p : α → Prop)
    [DecidablePred p] (f : α → β) :
    (l.flatMap fun a => if p a then [f a] else [])
      = (l.filter fun a => decide (p a)).map f := by
  induction l with
  | nil => rfl
  | cons a l ih =>
      by_cases h : p a <;> simp [List.filter_cons, h, ih]

theorem flatMap_const_singleton {α β : Type} (l : List α) (b : β) :
    (l.flatMap fun _ => [b]) = l.map fun _ => b := by
  induction l with
  | nil => rfl
  | cons a l ih => simpa using ih

theorem trainLoop_eq_flatMap (args : Args) (rank : Nat) (hAR : Bool) (epoch : Nat)
    (hd : args.dryRun = false) :
    ∀ m batchIdx, trainLoop args rank hAR epoch m batchIdx
      = (List.range' batchIdx m).flatMap (batchTrace args rank hAR epoch) := by
  intro m
  induction m with
  | zero => intro batchIdx; simp [trainLoop]
  | succ k ih =>
      intro batchIdx
      simp [trainLoop, hd, List.range'_succ, ih]

/-- `train` processes exactly the batch indices `trainIdxs`: all of
`0,…,n-1`, or just index `0` under `--dry-run`. -/
theorem train_eq_flatMap (args : Args) (rank : Nat) (hAR : Bool) (epoch n : Nat) :
    train args rank hAR epoch n
      = (trainIdxs args n).flatMap (batchTrace args rank hAR epoch) := by
  unfold train trainIdxs
  by_cases hd : args.dryRun
  · simp only [hd, if_true]
    cases n with
    | zero => simp [trainLoop]
    | succ k =>
        have hmin : min 1 (k + 1) = 1 := by omega
        simp [trainLoop, hd, hmin, List.range_succ]
  · rw [trainLoop_eq_flatMap args rank hAR epoch (by simpa using hd)]
    simp [hd, List.range_eq_range']

theorem epochLoop_eq_flatMap (args : Args) (rank : Nat) (hAR : Bool) (n : Nat) :
    ∀ k epoch, epochLoop args rank hAR n k epoch
      = (List.range' epoch k).flatMap (epochTrace args rank hAR n) := by
  intro k
  induction k with
  | zero => intro epoch; simp [epochLoop]
  | succ m ih =>
      intro epoch
      simp [epochLoop, List.range'_succ, ih]

/-! ### Claim theorems -/

/-- C5: `Net` has exactly two convolution, two dropout and two linear layers
(and nothing else), and its forward pass applies conv1, relu, conv2, relu,
max-pool, dropout1, flatten, fc1, relu, dropout2, fc2, log-softmax in that
order. -/
theorem claim5_net_structure :
    netLayers.length = 6
      ∧ (netLayers.countP fun p => p.2 == LayerKind.conv2d) = 2
      ∧ (netLayers.countP fun p => p.2 == LayerKind.dropout) = 2
      ∧ (netLayers.countP fun p => p.2 == LayerKind.linear) = 2
      ∧ (netLayers.map Prod.fst).Nodup
      ∧ netForward = specForwardOrder := by
  decide

/-- C7: the argument parser registers exactly the thirteen flags the spec
lists, and no others. -/
theorem claim7_cli_flags :
    cliFlags.length = 13
      ∧ cliFlags.Nodup
      ∧ cliFlags
          = [ "--batch-size", "--test-batch-size", "--epochs", "--lr",
              "--gamma", "--no-cuda", "--dry-run", "--seed", "--log-interval",
              "--save-model", "--local_rank", "--enable-msamp",
              "--opt-level" ] := by
  decide

/-- C2: every batch the training loop takes is processed as `zero_grad`,
forward, loss, `backward`, then `all_reduce_grads` exactly when the optimizer
has that attribute (and only then), then `optimizer.step`, with the optional
progress print last; the number of `all_reduce_grads` calls is one per
processed batch when the attribute exists and zero otherwise. -/
theorem claim2_batch_order (args : Args) (rank : Nat) (hAR : Bool)
    (epoch n : Nat) :
    train args rank hAR epoch n
        = (trainIdxs args n).flatMap (fun batchIdx =>
            [Event.zeroGrad, Event.forward, Event.nllLoss, Event.backward]
              ++ (if hAR then [Event.allReduceGrads] else [])
              ++ [Event.optStep]
              ++ (if rank = 0 ∧ batchIdx % args.logInterval = 0 then
                    [Event.trainLog epoch batchIdx]
                  else []))
      ∧ (train args rank hAR epoch n).countP isAllReduce
          = (if hAR then (trainIdxs args n).length else 0) := by
  constructor
  · exact train_eq_flatMap args rank hAR epoch n
  · rw [train_eq_flatMap args rank hAR epoch n]
    have hbt : ∀ batchIdx, (batchTrace args rank hAR epoch batchIdx).countP isAllReduce
        = (if hAR then 1 else 0) := by
      intro batchIdx
      by_cases h : hAR
        <;> by_cases hl : rank = 0 ∧ batchIdx % args.logInterval = 0
        <;> simp [batchTrace, h, hl, isAllReduce, List.countP_append,
              List.countP_cons]
    rw [countP_flatMap_const isAllReduce _ (if hAR then 1 else 0) hbt]
    by_cases h : hAR <;> simp [h]

/-- C9 counterexample: with `--dry-run` set and an empty training loader the
`for` loop body never runs, so zero batches are processed, not "exactly one
… regardless of how many batches the training loader contains". -/
def cexArgs9 : Args :=
  ⟨64, 1000, 4, 0, 0, false, true, 1, 10, false, 0, false, "O1"⟩

/-- C9 is false as stated: under `--dry-run` with a loader of zero batches,
`train` performs zero `zero_grad`/forward/backward/step cycles, not one. -/
theorem claim9_cex :
    (train cexArgs9 0 false 1 0).countP isZeroGrad = 0
      ∧ ¬ (train cexArgs9 0 false 1 0).countP isZeroGrad = 1 := by
  decide

/-- C9 (amended): `train` performs exactly `min 1 n` batch cycles under
`--dry-run` (one whenever the loader is non-empty) and exactly `n` without
it, where `n` is the number of batches in the loader. -/
theorem claim9_dry_run (args : Args) (rank : Nat) (hAR : Bool)
    (epoch n : Nat) :
    (train args rank hAR epoch n).countP isZeroGrad
      = (if args.dryRun then min 1 n else n) := by
  rw [train_eq_flatMap args rank hAR epoch n]
  have hbt : ∀ batchIdx, (batchTrace args rank hAR epoch batchIdx).countP isZeroGrad = 1 := by
    intro batchIdx
    by_cases h : hAR
      <;> by_cases hl : rank = 0 ∧ batchIdx % args.logInterval = 0
      <;> simp [batchTrace, h, hl, isZeroGrad, List.countP_append,
            List.countP_cons]
  rw [countP_flatMap_const isZeroGrad _ 1 hbt]
  by_cases hd : args.dryRun <;> simp [hd, trainIdxs]

/-! ### Count- and filter-shape lemmas for the epoch loop -/

theorem countP_epochLoop_zero (args : Args) (rank : Nat) (hAR : Bool)
    (n : Nat) (p : Event → Bool)
    (hz : p Event.zeroGrad = false) (hf : p Event.forward = false)
    (hl : p Event.nllLoss = false) (hb : p Event.backward = false)
    (ha : p Event.allReduceGrads = false) (hs : p Event.optStep = false)
    (hlog : ∀ e i, p (Event.trainLog e i) = false)
    (hse : ∀ e, p (Event.setEpoch e) = false)
    (hte : p Event.testEval = false) (hss : p Event.schedStep = false) :
    ∀ k epoch, (epochLoop args rank hAR n k epoch).countP p = 0 := by
  have hbt : ∀ epoch batchIdx,
      (batchTrace args rank hAR epoch batchIdx).countP p = 0 := by
    intro epoch batchIdx
    by_cases h : hAR
      <;> by_cases hlg : rank = 0 ∧ batchIdx % args.logInterval = 0
      <;> simp [batchTrace, h, hlg, List.countP_append, List.countP_cons,
            hz, hf, hl, hb, ha, hs, hlog]
  have htr : ∀ epoch, (train args rank hAR epoch n).countP p = 0 := by
    intro epoch
    rw [train_eq_flatMap,
      countP_flatMap_const p _ 0 (hbt epoch) (trainIdxs args n)]
    simp
  have hite : (if rank = 0 then [Event.testEval] else []).countP p = 0 := by
    by_cases hr : rank = 0 <;> simp [hr, List.countP_cons, hte]
  have het : ∀ epoch, (epochTrace args rank hAR n epoch).countP p = 0 := by
    intro epoch
    rw [epochTrace, List.countP_cons, List.countP_append, List.countP_append,
      htr epoch, hite, hse epoch]
    simp [hss]
  intro k
  induction k with
  | zero => intro epoch; simp [epochLoop]
  | succ m ih =>
      intro epoch
      rw [epochLoop, List.countP_append, het epoch, ih (epoch + 1)]

/-! ### C1: msamp.initialize is applied iff the flag is set -/

/-- C1: `msamp.initialize` is called exactly once when `--enable-msamp` is
given (on the freshly built `Net` and `AdamW`, with the `--opt-level`
value, directly after their construction) and never otherwise; without the
flag the model and optimizer that reach the training loop are the
unmodified `Net` and `AdamW` (the model then being wrapped in DDP, as it
is in both branches). -/
theorem claim1_msamp_init_iff (args : Args) (rank : Nat) (mAR : Bool)
    (n : Nat) :
    (mainEvents args rank mAR n).countP isMsampInit
        = (if args.enableMsamp then 1 else 0)
      ∧ (args.enableMsamp = false →
          (mainEvents args rank mAR n).countP isMsampInit = 0
            ∧ modelAfterMsamp args = ModelKind.net
            ∧ optAfterMsamp args = OptKind.adamW
            ∧ trainedModel args = ModelKind.ddpWrapped ModelKind.net)
      ∧ (args.enableMsamp = true →
          List.IsInfix
            [Event.buildModel ModelKind.net, Event.buildOpt OptKind.adamW,
             Event.msampPrint args.optLevel, Event.msampInit args.optLevel]
            (mainEvents args rank mAR n)) := by
  have hloop := countP_epochLoop_zero args rank (args.enableMsamp && mAR) n
    isMsampInit rfl rfl rfl rfl rfl rfl (fun _ _ => rfl) (fun _ => rfl) rfl rfl
    args.epochs 1
  have hsave : (if args.saveModel ∧ rank = 0 then
      [Event.saveFile "mnist_cnn.pt"] else []).countP isMsampInit = 0 := by
    by_cases hsv : args.saveModel ∧ rank = 0
      <;> simp [hsv, List.countP_cons, isMsampInit]
  have hcount : (mainEvents args rank mAR n).countP isMsampInit
      = (if args.enableMsamp then 1 else 0) := by
    simp only [mainEvents, mainBody, List.countP_append, hloop, hsave]
    by_cases hm : args.enableMsamp
      <;> by_cases h0 : args.localRank = 0
      <;> by_cases hgt : args.localRank > 0
      <;> simp [hm, h0, hgt, List.countP_cons, isMsampInit]
  refine ⟨hcount, ?_, ?_⟩
  · intro hm
    refine ⟨?_, ?_, ?_, ?_⟩
    · rw [hcount]; simp [hm]
    · simp [modelAfterMsamp, hm]
    · simp [optAfterMsamp, hm]
    · simp [trainedModel, modelAfterMsamp, hm]
  · intro hm
    refine ⟨[Event.parseArgs, Event.setDevice args.localRank,
        Event.initProcessGroup "nccl" "env://", Event.manualSeed args.seed]
        ++ (if args.localRank = 0 then [Event.mnistData true true] else [])
        ++ [Event.cudaSync]
        ++ (if args.localRank > 0 then [Event.mnistData true false] else [])
        ++ [Event.mnistData false false, Event.distSampler, Event.seqSampler,
            Event.dataLoader true, Event.dataLoader false],
      [Event.ddpWrap args.localRank, Event.buildScheduler]
        ++ epochLoop args rank (args.enableMsamp && mAR) n args.epochs 1
        ++ (if args.saveModel ∧ rank = 0 then [Event.saveFile "mnist_cnn.pt"]
            else []), ?_⟩
    simp [mainEvents, mainBody, hm, List.append_assoc]

/-- C1 witness: with `--enable-msamp` and `--opt-level O2` the construction
segment `Net`, `AdamW`, msamp print, `msamp.initialize` occurs in the trace;
without the flag no `msamp.initialize` call occurs and the model and
optimizer stay `Net` and `AdamW`. -/
def witArgs1 : Args :=
  ⟨64, 1000, 1, 0, 0, false, false, 1, 10, false, 0, true, "O2"⟩

/-- The same arguments with `--enable-msamp` absent. -/
def witArgs1b : Args :=
  ⟨64, 1000, 1, 0, 0, false, false, 1, 10, false, 0, false, "O2"⟩

/-- Witness for C1, exercising both hypotheses of `claim1_msamp_init_iff`
at concrete inputs. -/
theorem claim1_witness :
    List.IsInfix
        [Event.buildModel ModelKind.net, Event.buildOpt OptKind.adamW,
         Event.msampPrint "O2", Event.msampInit "O2"]
        (mainEvents witArgs1 0 false 1)
      ∧ ((mainEvents witArgs1b 0 false 1).countP isMsampInit = 0
          ∧ modelAfterMsamp witArgs1b = ModelKind.net
          ∧ optAfterMsamp witArgs1b = OptKind.adamW
          ∧ trainedModel witArgs1b = ModelKind.ddpWrapped ModelKind.net) :=
  ⟨(claim1_msamp_init_iff witArgs1 0 false 1).2.2 rfl,
   (claim1_msamp_init_iff witArgs1b 0 false 1).2.1 rfl⟩

/-! ### C3: order of the steps of main -/

/-- The setup part of `main` in source order: (a) argument parsing, (b)
process-group setup, (c) dataset/loader construction, (d) model/optimizer
construction with the optional msamp initialization and the DDP wrap. -/
def setupTrace (args : Args) : List Event :=
  [ Event.parseArgs,
    Event.setDevice args.localRank,
    Event.initProcessGroup "nccl" "env://",
    Event.manualSeed args.seed ]
    ++ (if args.localRank = 0 then [Event.mnistData true true] else [])
    ++ [Event.cudaSync]
    ++ (if args.localRank > 0 then [Event.mnistData true false] else [])
    ++ [ Event.mnistData false false,
         Event.distSampler,
         Event.seqSampler,
         Event.dataLoader true,
         Event.dataLoader false,
         Event.buildModel ModelKind.net,
         Event.buildOpt OptKind.adamW ]
    ++ (if args.enableMsamp then
          [Event.msampPrint args.optLevel, Event.msampInit args.optLevel]
        else [])
    ++ [Event.ddpWrap args.localRank, Event.buildScheduler]

/-- C3 counterexample input: two epochs, one batch, rank 0. -/
def cexArgs3 : Args :=
  ⟨1, 1, 2, 0, 0, false, false, 1, 1, false, 0, false, "O1"⟩

/-- C3 is false as stated: with two epochs the evaluation loop is not a
step that begins only after the training loop completes — epoch 1's
evaluation runs before epoch 2's training, so a training event follows the
first evaluation event. -/
theorem claim3_cex :
    noTrainingAfterEval (mainEvents cexArgs3 0 false 1) = false := by
  decide

/-- C3 (amended): `main` performs (a) argument parsing, (b) process-group
setup, (c) dataset/loader construction and (d) model/optimizer construction
with optional msamp initialization strictly in that order, and then a single
per-epoch loop in which each epoch runs its training, then (on rank 0 only)
its evaluation, then the scheduler step; the optional checkpoint save comes
after all epochs.  Training as a whole does not complete before evaluation
begins: they interleave per epoch. -/
theorem claim3_phase_order (args : Args) (rank : Nat) (mAR : Bool)
    (n : Nat) :
    mainEvents args rank mAR n
      = setupTrace args
          ++ (List.range' 1 args.epochs).flatMap (fun epoch =>
                Event.setEpoch epoch
                  :: (train args rank (args.enableMsamp && mAR) epoch n
                      ++ (if rank = 0 then [Event.testEval] else [])
                      ++ [Event.schedStep]))
          ++ (if args.saveModel ∧ rank = 0 then
                [Event.saveFile "mnist_cnn.pt"]
              else []) := by
  have hfun : epochTrace args rank (args.enableMsamp && mAR) n
      = fun epoch =>
          Event.setEpoch epoch
            :: (train args rank (args.enableMsamp && mAR) epoch n
                ++ ((if rank = 0 then [Event.testEval] else [])
                    ++ [Event.schedStep])) := by
    funext epoch
    simp [epochTrace, List.append_assoc]
  simp [mainEvents, mainBody, setupTrace, epochLoop_eq_flatMap, hfun,
    List.append_assoc]

/-! ### C4: synchronization actions taken by the script -/

/-- C4 counterexample input: zero epochs keeps the trace short. -/
def cexArgs4 : Args :=
  ⟨1, 1, 0, 0, 0, false, false, 1, 1, false, 0, false, "O1"⟩

/-- C4 is false as stated: the script's own code also calls
`torch.cuda.synchronize()` (between the two training-dataset
constructions), a device synchronization that is neither the process-group
initialization nor a `set_epoch` call. -/
theorem claim4_cex :
    Event.cudaSync ∈ mainEvents cexArgs4 0 false 0
      ∧ isSyncEvent Event.cudaSync = true
      ∧ isClaimedSync Event.cudaSync = false := by
  decide

theorem filter_sync_batchTrace (args : Args) (rank : Nat) (hAR : Bool)
    (epoch batchIdx : Nat) :
    (batchTrace args rank hAR epoch batchIdx).filter isSyncEvent
      = (if hAR then [Event.allReduceGrads] else []) := by
  by_cases h : hAR
    <;> by_cases hl : rank = 0 ∧ batchIdx % args.logInterval = 0
    <;> simp [batchTrace, h, hl, isSyncEvent, List.filter_append,
          List.filter_cons]

theorem filter_sync_train (args : Args) (rank : Nat) (hAR : Bool)
    (epoch n : Nat) :
    (train args rank hAR epoch n).filter isSyncEvent
      = (if hAR then (trainIdxs args n).map (fun _ => Event.allReduceGrads)
         else []) := by
  rw [train_eq_flatMap, List.filter_flatMap]
  simp only [filter_sync_batchTrace]
  by_cases h : hAR
  · simp only [h, if_true]
    exact flatMap_const_singleton (trainIdxs args n) Event.allReduceGrads
  · simp only [h, if_false]
    exact flatMap_const_nil (trainIdxs args n)

theorem filter_sync_epochTrace (args : Args) (rank : Nat) (hAR : Bool)
    (n epoch : Nat) :
    (epochTrace args rank hAR n epoch).filter isSyncEvent
      = Event.setEpoch epoch
          :: (if hAR then
                (trainIdxs args n).map (fun _ => Event.allReduceGrads)
              else []) := by
  by_cases hr : rank = 0
    <;> simp [epochTrace, List.filter_append, List.filter_cons, isSyncEvent,
          filter_sync_train, hr]

/-- C4 (amended): the synchronization actions invoked by the script's own
code are exactly: the one-time process-group initialization, one
`torch.cuda.synchronize()` call made between the dataset constructions,
then per epoch one `set_epoch` call before that epoch's training followed
by one `all_reduce_grads` call per processed batch when (and only when) the
optimizer carries that attribute.  No other synchronization action occurs. -/
theorem claim4_sync_actions (args : Args) (rank : Nat) (mAR : Bool)
    (n : Nat) :
    (mainEvents args rank mAR n).filter isSyncEvent
      = [Event.initProcessGroup "nccl" "env://", Event.cudaSync]
          ++ (List.range' 1 args.epochs).flatMap (fun epoch =>
                Event.setEpoch epoch
                  :: (if args.enableMsamp && mAR then
                        (trainIdxs args n).map (fun _ => Event.allReduceGrads)
                      else [])) := by
  by_cases h0 : args.localRank = 0
    <;> by_cases hgt : args.localRank > 0
    <;> by_cases hm : args.enableMsamp
    <;> by_cases hsv : args.saveModel ∧ rank = 0
    <;> simp [mainEvents, mainBody, List.filter_append, List.filter_cons,
          isSyncEvent, epochLoop_eq_flatMap, List.filter_flatMap,
          filter_sync_epochTrace, h0, hgt, hm, hsv]

/-! ### C6: the optional checkpoint -/

/-- C6: a checkpoint is written if and only if `--save-model` is set and the
process is rank 0; the save is the single last action of `main` (after all
epochs), it targets `mnist_cnn.pt`, and no save happens anywhere in the body
of the run; with the flag absent no process ever writes a checkpoint. -/
theorem claim6_save_model (args : Args) (rank : Nat) (mAR : Bool)
    (n : Nat) :
    mainEvents args rank mAR n
        = mainBody args rank mAR n
            ++ (if args.saveModel ∧ rank = 0 then
                  [Event.saveFile "mnist_cnn.pt"]
                else [])
      ∧ (mainBody args rank mAR n).countP isSaveFile = 0
      ∧ (mainEvents args rank mAR n).countP isSaveFile
          = (if args.saveModel ∧ rank = 0 then 1 else 0)
      ∧ (Event.saveFile "mnist_cnn.pt" ∈ mainEvents args rank mAR n
          ↔ args.saveModel = true ∧ rank = 0) := by
  have hloop := countP_epochLoop_zero args rank (args.enableMsamp && mAR) n
    isSaveFile rfl rfl rfl rfl rfl rfl (fun _ _ => rfl) (fun _ => rfl) rfl rfl
    args.epochs 1
  have hbody : (mainBody args rank mAR n).countP isSaveFile = 0 := by
    simp only [mainBody, List.countP_append, hloop]
    by_cases h0 : args.localRank = 0
      <;> by_cases hgt : args.localRank > 0
      <;> by_cases hm : args.enableMsamp
      <;> simp [h0, hgt, hm, List.countP_cons, isSaveFile]
  have hcount : (mainEvents args rank mAR n).countP isSaveFile
      = (if args.saveModel ∧ rank = 0 then 1 else 0) := by
    rw [mainEvents, List.countP_append, hbody]
    by_cases hsv : args.saveModel ∧ rank = 0
      <;> simp [hsv, List.countP_cons, isSaveFile]
  refine ⟨rfl, hbody, hcount, ?_, ?_⟩
  · intro hmem
    rw [mainEvents, List.mem_append] at hmem
    rcases hmem with hmem | hmem
    · exfalso
      have := List.countP_eq_zero.mp hbody _ hmem
      simp [isSaveFile] at this
    · by_cases hsv : args.saveModel ∧ rank = 0
      · simpa using hsv
      · simp [hsv] at hmem
  · intro hsv
    rw [mainEvents, List.mem_append]
    right
    simp [hsv.1, hsv.2]

/-! ### C8: errors propagate uncaught -/

theorem runEvents_eq {ε : Type} (oracle : Event → Option ε) :
    ∀ l : List Event,
      runEvents oracle l
        = match (l.filterMap oracle).head? with
          | some err => Except.error err
          | none => Except.ok l := by
  intro l
  induction l with
  | nil => rfl
  | cons e rest ih =>
      cases ho : oracle e with
      | some err => simp [runEvents, ho, List.filterMap_cons]
      | none =>
          rw [runEvents]
          simp only [ho, List.filterMap_cons, ih]
          cases hm : (rest.filterMap oracle).head? <;> simp [hm]

/-- C8: the script installs no exception handler: running `main`'s calls
under any oracle of framework errors either completes every call, or stops
at the first call that raises and returns that error object unchanged — no
retry, no recovery, no partial-failure handling, in any phase. -/
theorem claim8_error_propagation {ε : Type} (args : Args) (rank : Nat)
    (mAR : Bool) (n : Nat) (oracle : Event → Option ε) :
    runEvents oracle (mainEvents args rank mAR n)
      = match ((mainEvents args rank mAR n).filterMap oracle).head? with
        | some err => Except.error err
        | none => Except.ok (mainEvents args rank mAR n) :=
  runEvents_eq oracle (mainEvents args rank mAR n)

/-! ### C10: output is not entirely confined to rank 0 -/

/-- C10 counterexample input: `--enable-msamp` set, zero epochs. -/
def cexArgs10 : Args :=
  ⟨1, 1, 0, 0, 0, false, false, 1, 1, false, 1, true, "O1"⟩

/-- C10 is false as stated: with `--enable-msamp`, `main` prints the
"msamp is enabled" line on every rank — here the rank-1 trace contains a
user-visible output event, so output is not confined to rank 0. -/
theorem claim10_cex :
    Event.msampPrint "O1" ∈ mainEvents cexArgs10 1 false 0
      ∧ isOutputEvent (Event.msampPrint "O1") = true := by
  decide

theorem filter_output_batchTrace (args : Args) (rank : Nat) (hAR : Bool)
    (epoch batchIdx : Nat) :
    (batchTrace args rank hAR epoch batchIdx).filter isOutputEvent
      = (if rank = 0 ∧ batchIdx % args.logInterval = 0 then
           [Event.trainLog epoch batchIdx]
         else []) := by
  by_cases h : hAR
    <;> by_cases hl : rank = 0 ∧ batchIdx % args.logInterval = 0
    <;> simp [batchTrace, h, hl, isOutputEvent, List.filter_append,
          List.filter_cons]

theorem filter_output_train (args : Args) (rank : Nat) (hAR : Bool)
    (epoch n : Nat) :
    (train args rank hAR epoch n).filter isOutputEvent
      = (if rank = 0 then
           ((trainIdxs args n).filter
               (fun batchIdx => decide (batchIdx % args.logInterval = 0))).map
             (Event.trainLog epoch)
         else []) := by
  rw [train_eq_flatMap, List.filter_flatMap]
  simp only [filter_output_batchTrace]
  by_cases hr : rank = 0
  · subst hr
    simp only [true_and, if_pos rfl]
    exact flatMap_ite_singleton (trainIdxs args n)
      (fun batchIdx => batchIdx % args.logInterval = 0)
      (Event.trainLog epoch)
  · simp [hr, flatMap_const_nil]

theorem filter_output_epochTrace (args : Args) (rank : Nat) (hAR : Bool)
    (n epoch : Nat) :
    (epochTrace args rank hAR n epoch).filter isOutputEvent
      = (if rank = 0 then
           ((trainIdxs args n).filter
               (fun batchIdx => decide (batchIdx % args.logInterval = 0))).map
               (Event.trainLog epoch)
             ++ [Event.testEval]
         else []) := by
  by_cases hr : rank = 0
    <;> simp [epochTrace, List.filter_append, List.filter_cons, isOutputEvent,
          filter_output_train, hr]

/-- C10 (amended): training-progress prints happen only on rank 0 and only
on batch indices that are multiples of `--log-interval`, and the test
evaluation (with its output) is invoked only by rank 0; however, when
`--enable-msamp` is set every rank additionally prints one "msamp is
enabled" informational line, so the whole of the user-visible output is not
confined to rank 0. -/
theorem claim10_rank_zero_output (args : Args) (rank : Nat) (mAR : Bool)
    (n : Nat) :
    (mainEvents args rank mAR n).filter isOutputEvent
      = (if args.enableMsamp then [Event.msampPrint args.optLevel] else [])
          ++ (if rank = 0 then
                (List.range' 1 args.epochs).flatMap (fun epoch =>
                  ((trainIdxs args n).filter
                      (fun batchIdx =>
                        decide (batchIdx % args.logInterval = 0))).map
                      (Event.trainLog epoch)
                    ++ [Event.testEval])
              else []) := by
  by_cases hr : rank = 0
    <;> by_cases h0 : args.localRank = 0
    <;> by_cases hgt : args.localRank > 0
    <;> by_cases hm : args.enableMsamp
    <;> by_cases hsv : args.saveModel ∧ rank = 0
    <;> simp [mainEvents, mainBody, List.filter_append, List.filter_cons,
          isOutputEvent, epochLoop_eq_flatMap, List.filter_flatMap,
          filter_output_epochTrace, flatMap_const_nil, hr, h0, hgt, hm, hsv]

end MnistDdp
